import Mathlib

/-
  Shallow embedding of `actix-xsrf` (src/lib.rs), an actix-web middleware
  providing XSRF protection via the Double Submit Cookie pattern.

  The external `xsrf` crate (token cryptography) is out of scope for the
  repository; it is modelled abstractly by a `Crypto` record exposing
  `parse` (the `TryInto<CookieToken>` impl for `&str`), `fresh`
  (`CookieToken::new()` — minting happens at most once per request, so a
  single fresh value suffices), `derive` (`CookieToken::gen_req_token`) and
  `tokStr` (`CookieToken::to_string`).

  Rust panics (`expect`/`unwrap`) are modelled as `Except.error` carrying the
  panic message: an `Except.error` result means the Rust code aborts, never
  that it returns a recoverable `Result::Err` to the caller.

  The actix request-extension store (`req.extensions()`), which holds at most
  one `ReqExt` per request, is modelled as an `Option ReqExt` field on the
  request; `ext.get::<ReqExt>()` returning `None` corresponds to the
  middleware not having been installed.
-/

namespace ActixXsrf

/-- Opaque cookie secret from the external `xsrf` crate (`CookieToken`). -/
structure CookieToken where
  val : Nat
  deriving DecidableEq, Repr

/-- Opaque per-request token from the external `xsrf` crate (`RequestToken`). -/
structure RequestToken where
  val : Nat
  deriving DecidableEq, Repr

/-- Interface of the external `xsrf` crate consumed by the middleware. -/
structure Crypto where
  /-- `<&str as TryInto<CookieToken>>::try_into`, as an `Option`. -/
  parse : String → Option CookieToken
  /-- `CookieToken::new()`: the fresh secret minted for this request. -/
  fresh : CookieToken
  /-- `CookieToken::gen_req_token`. -/
  derive : CookieToken → RequestToken
  /-- `CookieToken::to_string`. -/
  tokStr : CookieToken → String

/-- The `ReqExt` struct attached to each request by the middleware
(src/lib.rs lines 72-77). -/
structure ReqExt where
  cookie_name : String
  cookie_token : Option CookieToken
  request_token : Option RequestToken
  write_cookie : Bool
  deriving DecidableEq, Repr

/-- An incoming request: its cookies (name/value pairs readable via
`req.cookie(name)`) and the extension slot for `ReqExt`. -/
structure HttpRequest where
  cookies : List (String × String)
  ext : Option ReqExt
  deriving DecidableEq, Repr

/-- `req.cookie(name)`: look up a cookie value by name. -/
def HttpRequest.cookie (req : HttpRequest) (name : String) : Option String :=
  (req.cookies.find? (fun p => p.1 == name)).map (fun p => p.2)

/-- Panic message used by every `expect` on the extension lookup
(src/lib.rs line 13). -/
def MIDDLEWARE_MISSING : String := "xsrf_token used without corresponding middleware"

/-- Panic message modelling `Option::unwrap` on `None`. -/
def UNWRAP_NONE : String := "called Option::unwrap() on a None value"

/-- `get_existing_request_token` (src/lib.rs lines 19-26): read the cached
`request_token` out of the attached `ReqExt`, panicking with
`MIDDLEWARE_MISSING` when no `ReqExt` is attached. -/
def get_existing_request_token (req : HttpRequest) :
    Except String (Option RequestToken) :=
  match req.ext with
  | none => .error MIDDLEWARE_MISSING
  | some re => .ok re.request_token

/-- The `match req.cookie(cookie_name)` block of `ensure_cookie_token`
(src/lib.rs lines 38-48): resolve the cookie secret from the named request
cookie, minting a fresh one (and flagging `write_cookie`) when the cookie is
absent or fails to parse.  Returns `(write_cookie, ct)`. -/
def resolve_secret (env : Crypto) (req : HttpRequest) (cookie_name : String) :
    Bool × CookieToken :=
  match req.cookie cookie_name with
  | some v =>
    match env.parse v with
    | some ct => (false, ct)
    | none => (true, env.fresh)
  | none => (true, env.fresh)

/-- `ensure_cookie_token` (src/lib.rs lines 28-55): if `cookie_token` is
already set, return early; otherwise resolve it from the named request
cookie via `resolve_secret` and store it, setting `write_cookie` only when
the resolution minted a fresh secret (`if write_cookie { re.write_cookie =
write_cookie; }`). -/
def ensure_cookie_token (env : Crypto) (req : HttpRequest) :
    Except String HttpRequest :=
  match req.ext with
  | none => .error MIDDLEWARE_MISSING
  | some re =>
    if re.cookie_token.isSome then
      .ok req
    else
      let wc_ct := resolve_secret env req re.cookie_name
      let re' : ReqExt :=
        { re with
          cookie_token := some wc_ct.2
          write_cookie := if wc_ct.1 then wc_ct.1 else re.write_cookie }
      .ok { req with ext := some re' }

/-- `RequestXSRF::xsrf_token for HttpRequest` (src/lib.rs lines 57-69):
return the cached `request_token` if present; otherwise resolve the cookie
secret via `ensure_cookie_token`, derive a request token from it, cache it
and return it.  Returns the token together with the updated request. -/
def xsrf_token (env : Crypto) (req : HttpRequest) :
    Except String (RequestToken × HttpRequest) :=
  match get_existing_request_token req with
  | .error e => .error e
  | .ok (some rt) => .ok (rt, req)
  | .ok none =>
    match ensure_cookie_token env req with
    | .error e => .error e
    | .ok req1 =>
      match req1.ext with
      | none => .error MIDDLEWARE_MISSING
      | some re =>
        match re.cookie_token with
        | none => .error UNWRAP_NONE
        | some ct =>
          let rt := env.derive ct
          let re' : ReqExt := { re with request_token := some rt }
          .ok (rt, { req1 with ext := some re' })

/-- An outgoing response: status, body and headers. -/
structure Response where
  status : Nat
  body : String
  headers : List (String × String)
  deriving DecidableEq, Repr

/-- Name of the `Set-Cookie` header (`http::header::SET_COOKIE`). -/
def SET_COOKIE : String := "set-cookie"

/-- `CookieBuilder::new(name, value).finish().to_string()`: serialization of
a bare cookie directive. -/
def cookie_directive (name val : String) : String := name ++ "=" ++ val

/-- The pre-hook half of `ProtectXSRFTransform::call` (src/lib.rs lines
132-140): attach a fresh, empty `ReqExt` carrying the configured cookie name
to the request before the wrapped service runs. -/
def pre_hook (cookie_name : String) (req : HttpRequest) : HttpRequest :=
  { req with
    ext := some
      { cookie_name := cookie_name
        cookie_token := none
        request_token := none
        write_cookie := false } }

/-- The post-hook half of `ProtectXSRFTransform::call` (src/lib.rs lines
150-166), run on a successful response: read the attached `ReqExt`
(`unwrap`), and when `write_cookie` is set append a `Set-Cookie` header built
from `cookie_name` and the string form of `cookie_token` (`unwrap`). -/
def post_hook (env : Crypto) (req : HttpRequest) (res : Response) :
    Except String Response :=
  match req.ext with
  | none => .error UNWRAP_NONE
  | some re =>
    if re.write_cookie then
      match re.cookie_token with
      | none => .error UNWRAP_NONE
      | some ct =>
        .ok { res with
              headers :=
                res.headers ++
                  [(SET_COOKIE, cookie_directive re.cookie_name (env.tokStr ct))] }
    else
      .ok res

/-- `ProtectXSRFTransform::call` (src/lib.rs lines 126-170) end to end: run
the pre-hook, hand the request to the wrapped service (which may mutate the
attached `ReqExt`, e.g. by calling `xsrf_token`, and returns the response
paired with the request as `ServiceResponse` does), propagate a service
error unchanged, and otherwise run the post-hook.  The outer `Except String`
models panics; the inner `Except E` is the pipeline's error channel. -/
def transform_call {E : Type} (env : Crypto) (cookie_name : String)
    (service : HttpRequest → (Except E Response) × HttpRequest)
    (req : HttpRequest) : Except String (Except E Response) :=
  let req1 := pre_hook cookie_name req
  let out := service req1
  match out.1 with
  | .error err => .ok (.error err)
  | .ok res =>
    match post_hook env out.2 res with
    | .error p => .error p
    | .ok res' => .ok (.ok res')

/-- A handler that calls the accessor once and echoes the token in the body
(after `echo_request_token1` in the tests, src/lib.rs lines 179-181). -/
def echo_service (env : Crypto) (req : HttpRequest) :
    (Except Unit Response) × HttpRequest :=
  match xsrf_token env req with
  | .error _ => (.error (), req)
  | .ok (rt, req') =>
    (.ok { status := 200, body := toString rt.val, headers := [] }, req')

/-- Concrete instance of the external crypto interface used to evaluate the
theorems on closed inputs. -/
def cryptoW : Crypto where
  parse := fun s => if s = "s5" then some ⟨5⟩ else none
  fresh := ⟨5⟩
  derive := fun c => ⟨c.val + 1⟩
  tokStr := fun _ => "s5"

/-- Concrete bare request (no cookies, no extension attached). -/
def reqW : HttpRequest := { cookies := [], ext := none }

/-- Once set, the optional fields of `ReqExt` are never replaced, and the
cookie name never changes. -/
def OnceSet (re re' : ReqExt) : Prop :=
  re'.cookie_name = re.cookie_name ∧
  (∀ ct, re.cookie_token = some ct → re'.cookie_token = some ct) ∧
  (∀ rt, re.request_token = some rt → re'.request_token = some rt)

/-- Invariants of the per-request state: a request token exists only if a
cookie secret does, and `write_cookie` is set only if the stored secret is
the freshly minted one — which happens exactly when the request's named
cookie is absent or unparsable (so never when a valid cookie was adopted). -/
def StateInv (env : Crypto) (req : HttpRequest) (re : ReqExt) : Prop :=
  (re.request_token.isSome = true → re.cookie_token.isSome = true) ∧
  (re.write_cookie = true →
    re.cookie_token = some env.fresh ∧
    (resolve_secret env req re.cookie_name).1 = true)

/-- Request states reachable within one request wrapped by the middleware:
the pre-hook's output, and anything obtained from a reachable state by a
successful `ensure_cookie_token` or `xsrf_token` call. -/
inductive Reachable (env : Crypto) : HttpRequest → Prop where
  | start (name : String) (req : HttpRequest) : Reachable env (pre_hook name req)
  | ensure_step {r r' : HttpRequest} : Reachable env r →
      ensure_cookie_token env r = .ok r' → Reachable env r'
  | token_step {r r' : HttpRequest} {t : RequestToken} : Reachable env r →
      xsrf_token env r = .ok (t, r') → Reachable env r'

section Lemmas

variable {env : Crypto} {req : HttpRequest} {re : ReqExt}

/-- Characterization of `ensure_cookie_token` when the secret is already
resolved: early return, request unchanged. -/
theorem ensure_of_isSome (hext : req.ext = some re)
    (hct : re.cookie_token.isSome) : ensure_cookie_token env req = .ok req := by
  simp [ensure_cookie_token, hext, hct]

/-- Characterization of `ensure_cookie_token` when the secret is not yet
resolved: it is resolved via `resolve_secret` and stored. -/
theorem ensure_of_none (hext : req.ext = some re)
    (hct : re.cookie_token = none) :
    ensure_cookie_token env req =
      .ok { req with
            ext := some
              ({ re with
                 cookie_token := some (resolve_secret env req re.cookie_name).2
                 write_cookie :=
                   if (resolve_secret env req re.cookie_name).1 then
                     (resolve_secret env req re.cookie_name).1
                   else re.write_cookie }) } := by
  simp [ensure_cookie_token, hext, hct]

/-- Characterization of `xsrf_token` on a cache hit: the cached token is
returned and the request is untouched. -/
theorem xsrf_of_cached {rt : RequestToken} (hext : req.ext = some re)
    (hrt : re.request_token = some rt) :
    xsrf_token env req = .ok (rt, req) := by
  simp [xsrf_token, get_existing_request_token, hext, hrt]

/-- Characterization of `xsrf_token` when no token is cached but the secret
is already resolved: derive from that secret and cache the result. -/
theorem xsrf_of_secret {ct : CookieToken} (hext : req.ext = some re)
    (hrt : re.request_token = none) (hct : re.cookie_token = some ct) :
    xsrf_token env req =
      .ok (env.derive ct,
        { req with ext := some { re with request_token := some (env.derive ct) } }) := by
  simp [xsrf_token, get_existing_request_token, hext, hrt,
    ensure_of_isSome hext (by simp [hct]), hct]

/-- Characterization of `xsrf_token` on a completely fresh state: the secret
is resolved from the request cookie, a token is derived from it and both are
cached, together with the `write_cookie` flag. -/
theorem xsrf_of_fresh (hext : req.ext = some re)
    (hrt : re.request_token = none) (hct : re.cookie_token = none) :
    xsrf_token env req =
      .ok (env.derive (resolve_secret env req re.cookie_name).2,
        { req with
          ext := some
            ({ re with
               cookie_token := some (resolve_secret env req re.cookie_name).2
               write_cookie :=
                 if (resolve_secret env req re.cookie_name).1 then
                   (resolve_secret env req re.cookie_name).1
                 else re.write_cookie
               request_token :=
                 some (env.derive (resolve_secret env req re.cookie_name).2) }) }) := by
  simp [xsrf_token, get_existing_request_token, hext, hrt,
    ensure_of_none hext hct]

/-- When `resolve_secret` reports `write_cookie = true`, the secret it
resolved is the freshly minted one. -/
theorem resolve_fst_true (hwc : (resolve_secret env req name).1 = true) :
    (resolve_secret env req name).2 = env.fresh := by
  unfold resolve_secret at hwc ⊢
  cases hc : req.cookie name with
  | none => simp
  | some v =>
    cases hp : env.parse v with
    | none => simp [hp]
    | some ct => simp [hc, hp] at hwc

/-- `resolve_secret` reports `write_cookie = false` exactly when the named
cookie is present and parses. -/
theorem resolve_fst_false (hwc : (resolve_secret env req name).1 = false) :
    ∃ v ct, req.cookie name = some v ∧ env.parse v = some ct ∧
      (resolve_secret env req name).2 = ct := by
  unfold resolve_secret at hwc ⊢
  cases hc : req.cookie name with
  | none => simp [hc] at hwc
  | some v =>
    cases hp : env.parse v with
    | none => simp [hc, hp] at hwc
    | some ct => exact ⟨v, ct, rfl, hp, by simp [hp]⟩

/-- `resolve_secret` ignores the extension slot of the request. -/
theorem resolve_secret_ext {e : Option ReqExt} :
    resolve_secret env { req with ext := e } name = resolve_secret env req name := rfl

/-- A successful `xsrf_token` call leaves the returned token cached in the
returned request's extension. -/
theorem xsrf_ok_caches {rt : RequestToken} {req' : HttpRequest}
    (h : xsrf_token env req = .ok (rt, req')) :
    ∃ re', req'.ext = some re' ∧ re'.request_token = some rt := by
  cases hext : req.ext with
  | none => simp [xsrf_token, get_existing_request_token, hext] at h
  | some re =>
    cases hrt : re.request_token with
    | some rt0 =>
      rw [xsrf_of_cached hext hrt] at h
      simp only [Except.ok.injEq, Prod.mk.injEq] at h
      obtain ⟨h1, h2⟩ := h
      subst h1; subst h2
      exact ⟨re, hext, hrt⟩
    | none =>
      cases hct : re.cookie_token with
      | some ct =>
        rw [xsrf_of_secret hext hrt hct] at h
        simp only [Except.ok.injEq, Prod.mk.injEq] at h
        obtain ⟨h1, h2⟩ := h
        subst h1; subst h2
        exact ⟨_, rfl, rfl⟩
      | none =>
        rw [xsrf_of_fresh hext hrt hct] at h
        simp only [Except.ok.injEq, Prod.mk.injEq] at h
        obtain ⟨h1, h2⟩ := h
        subst h1; subst h2
        exact ⟨_, rfl, rfl⟩

end Lemmas

/-- C1: for every request with an attached `ReqExt`, a successful accessor
call caches its token, so a second call within the same request returns the
very same token and leaves the request unchanged; the second call is served
from the cached `request_token` (as `get_existing_request_token` shows), so
derivation happened exactly once. -/
theorem xsrf_token_idempotent (env : Crypto) (req req' : HttpRequest)
    (rt : RequestToken) (h : xsrf_token env req = .ok (rt, req')) :
    xsrf_token env req' = .ok (rt, req') ∧
    get_existing_request_token req' = .ok (some rt) := by
  obtain ⟨re', hext', hrt'⟩ := xsrf_ok_caches h
  exact ⟨xsrf_of_cached hext' hrt', by
    simp [get_existing_request_token, hext', hrt']⟩

/-- Witness for C1 on a concrete fresh request. -/
theorem xsrf_token_idempotent_witness :
    xsrf_token cryptoW
        { cookies := [],
          ext := some
            { cookie_name := "x", cookie_token := some ⟨5⟩,
              request_token := some ⟨6⟩, write_cookie := true } } =
      .ok (⟨6⟩,
        { cookies := [],
          ext := some
            { cookie_name := "x", cookie_token := some ⟨5⟩,
              request_token := some ⟨6⟩, write_cookie := true } }) ∧
    get_existing_request_token
        { cookies := [],
          ext := some
            { cookie_name := "x", cookie_token := some ⟨5⟩,
              request_token := some ⟨6⟩, write_cookie := true } } =
      .ok (some ⟨6⟩) :=
  xsrf_token_idempotent cryptoW (pre_hook "x" reqW) _ _ (by rfl)

/-- C6: if the wrapped service fails, `ProtectXSRFTransform::call` returns
that error unchanged as the pipeline outcome, no matter what state the
service left behind: no extension is read, no panic can occur and no
`Set-Cookie` logic runs. -/
theorem error_propagated_unchanged {E : Type} (env : Crypto)
    (cookie_name : String)
    (service : HttpRequest → (Except E Response) × HttpRequest)
    (req : HttpRequest) (e : E)
    (hsvc : (service (pre_hook cookie_name req)).1 = .error e) :
    transform_call env cookie_name service req = .ok (.error e) := by
  simp [transform_call, hsvc]

/-- Witness for C6: a service that always fails. -/
theorem error_propagated_unchanged_witness :
    transform_call cryptoW "x"
        (fun r => ((.error 7 : Except Nat Response), r)) reqW =
      .ok (.error 7) :=
  error_propagated_unchanged cryptoW "x" _ reqW 7 rfl

/-- C7: calling the accessor on a request with no `ReqExt` attached (the
middleware was not installed) aborts with the `MIDDLEWARE_MISSING` panic —
modelled as the `Except.error` channel reserved for panics, never a
recoverable value — while under the precondition that an extension is
attached (as the pre-hook guarantees) the accessor always returns
normally, so the panic branch is unreachable. -/
theorem xsrf_token_middleware_guard (env : Crypto) (req : HttpRequest) :
    (req.ext = none → xsrf_token env req = .error MIDDLEWARE_MISSING) ∧
    (∀ re, req.ext = some re → ∃ rt req', xsrf_token env req = .ok (rt, req')) := by
  constructor
  · intro hext
    simp [xsrf_token, get_existing_request_token, hext]
  · intro re hext
    cases hrt : re.request_token with
    | some rt0 => exact ⟨rt0, req, xsrf_of_cached hext hrt⟩
    | none =>
      cases hct : re.cookie_token with
      | some ct => exact ⟨_, _, xsrf_of_secret hext hrt hct⟩
      | none => exact ⟨_, _, xsrf_of_fresh hext hrt hct⟩

/-- Witness for C7: the accessor panics on a bare request, and succeeds
once the pre-hook has attached the extension. -/
theorem xsrf_token_middleware_guard_witness :
    xsrf_token cryptoW reqW = .error MIDDLEWARE_MISSING ∧
    ∃ rt req', xsrf_token cryptoW (pre_hook "x" reqW) = .ok (rt, req') :=
  ⟨(xsrf_token_middleware_guard cryptoW reqW).1 rfl,
    (xsrf_token_middleware_guard cryptoW (pre_hook "x" reqW)).2 _ rfl⟩

/-- C9: when the wrapped service succeeds and the final state has
`write_cookie` set, the middleware returns the service's response with
exactly one `Set-Cookie` header appended — built from `cookie_name` and the
string form of the stored secret — leaving status, body and every
pre-existing header intact. -/
theorem set_cookie_appends_frame {E : Type} (env : Crypto)
    (cookie_name : String)
    (service : HttpRequest → (Except E Response) × HttpRequest)
    (req req2 : HttpRequest) (res : Response) (re : ReqExt) (ct : CookieToken)
    (hsvc : service (pre_hook cookie_name req) = (.ok res, req2))
    (hext : req2.ext = some re) (hwc : re.write_cookie = true)
    (hct : re.cookie_token = some ct) :
    transform_call env cookie_name service req =
      .ok (.ok { res with
        headers := res.headers ++
          [(SET_COOKIE, cookie_directive re.cookie_name (env.tokStr ct))] }) ∧
    (∀ res', transform_call env cookie_name service req = .ok (.ok res') →
      res'.status = res.status ∧ res'.body = res.body ∧
      res'.headers = res.headers ++
        [(SET_COOKIE, cookie_directive re.cookie_name (env.tokStr ct))]) := by
  have hmain : transform_call env cookie_name service req =
      .ok (.ok { res with
        headers := res.headers ++
          [(SET_COOKIE, cookie_directive re.cookie_name (env.tokStr ct))] }) := by
    simp [transform_call, hsvc, post_hook, hext, hwc, hct]
  refine ⟨hmain, ?_⟩
  intro res' h'
  rw [hmain] at h'
  simp only [Except.ok.injEq] at h'
  subst h'
  exact ⟨rfl, rfl, rfl⟩

/-- Witness for C9: a service that calls the accessor on a cookie-less
request, forcing a cookie write. -/
theorem set_cookie_appends_frame_witness :
    transform_call cryptoW "x" (echo_service cryptoW) reqW =
      .ok (.ok
        { status := 200
          body := "6"
          headers := [] ++ [(SET_COOKIE, cookie_directive "x" "s5")] }) :=
  (set_cookie_appends_frame cryptoW "x" (echo_service cryptoW) reqW
      { cookies := [],
        ext := some
          { cookie_name := "x", cookie_token := some ⟨5⟩,
            request_token := some ⟨6⟩, write_cookie := true } }
      { status := 200, body := "6", headers := [] }
      { cookie_name := "x", cookie_token := some ⟨5⟩,
        request_token := some ⟨6⟩, write_cookie := true }
      ⟨5⟩ (by rfl) rfl rfl rfl).1

/-- The pre-hook attaches the empty extension record. -/
theorem pre_hook_ext {name : String} {req : HttpRequest} :
    (pre_hook name req).ext =
      some { cookie_name := name, cookie_token := none,
             request_token := none, write_cookie := false } := rfl

/-- The pre-hook does not touch the request's cookies. -/
theorem pre_hook_cookie {name m : String} {req : HttpRequest} :
    (pre_hook name req).cookie m = req.cookie m := rfl

/-- C2: for a request whose handling never calls the accessor (the service
returns the request state exactly as the pre-hook installed it),
`write_cookie` stays false and the middleware returns the service's response
unchanged; in particular, if the handler added no `Set-Cookie` header, the
outgoing response carries none. -/
theorem no_cookie_unless_used {E : Type} (env : Crypto) (cookie_name : String)
    (service : HttpRequest → (Except E Response) × HttpRequest)
    (req : HttpRequest) (res : Response)
    (hsvc : service (pre_hook cookie_name req) = (.ok res, pre_hook cookie_name req))
    (hres : ∀ v, (SET_COOKIE, v) ∉ res.headers) :
    transform_call env cookie_name service req = .ok (.ok res) ∧
    (∀ re, (service (pre_hook cookie_name req)).2.ext = some re →
      re.write_cookie = false) ∧
    (∀ res' v, transform_call env cookie_name service req = .ok (.ok res') →
      (SET_COOKIE, v) ∉ res'.headers) := by
  have hmain : transform_call env cookie_name service req = .ok (.ok res) := by
    simp only [transform_call, hsvc]
    simp [post_hook, pre_hook_ext]
  refine ⟨hmain, ?_, ?_⟩
  · intro re hre
    rw [hsvc] at hre
    rw [pre_hook_ext] at hre
    simp only [Option.some.injEq] at hre
    rw [← hre]
  · intro res' v h'
    rw [hmain] at h'
    simp only [Except.ok.injEq] at h'
    subst h'
    exact hres v

/-- Witness for C2: a handler that never calls the accessor. -/
theorem no_cookie_unless_used_witness :
    transform_call cryptoW "x"
        (fun r => ((.ok { status := 200, body := "ok", headers := [] }
          : Except Unit Response), r)) reqW =
      .ok (.ok { status := 200, body := "ok", headers := [] }) :=
  (no_cookie_unless_used cryptoW "x" _ reqW
    { status := 200, body := "ok", headers := [] } rfl (by simp)).1

/-- C3: on a request presenting no cookie under the configured name, the
accessor mints the fresh secret, records it with `write_cookie = true`, and
returns the token derived from it; the post-hook then appends a `Set-Cookie`
header whose cookie value is the string form of the minted secret, which
parses back to that same secret; end to end, a handler calling the accessor
yields a response carrying exactly that header. -/
theorem fresh_cookie_on_first_use (env : Crypto) (name : String)
    (req0 : HttpRequest) (res : Response)
    (hcookie : req0.cookie name = none)
    (hround : env.parse (env.tokStr env.fresh) = some env.fresh) :
    ∃ req', xsrf_token env (pre_hook name req0) =
        .ok (env.derive env.fresh, req') ∧
      ∃ re', req'.ext = some re' ∧
        re'.cookie_token = some env.fresh ∧
        re'.write_cookie = true ∧
        env.parse (env.tokStr env.fresh) = some env.fresh ∧
        post_hook env req' res =
          .ok { res with
                headers := res.headers ++
                  [(SET_COOKIE, cookie_directive name (env.tokStr env.fresh))] } ∧
        transform_call env name (echo_service env) req0 =
          .ok (.ok
            { status := 200
              body := toString (env.derive env.fresh).val
              headers := [(SET_COOKIE, cookie_directive name (env.tokStr env.fresh))] }) := by
  have hres : resolve_secret env (pre_hook name req0) name = (true, env.fresh) := by
    simp [resolve_secret, pre_hook_cookie, hcookie]
  have h := @xsrf_of_fresh env (pre_hook name req0)
    { cookie_name := name, cookie_token := none,
      request_token := none, write_cookie := false } rfl rfl rfl
  simp only [hres] at h
  refine ⟨_, h, _, rfl, rfl, rfl, hround, ?_, ?_⟩
  · simp [post_hook]
  · simp [transform_call, echo_service, h, post_hook]

/-- Witness for C3 on a concrete cookie-less request. -/
theorem fresh_cookie_on_first_use_witness :
    ∃ req', xsrf_token cryptoW (pre_hook "x" reqW) = .ok (⟨6⟩, req') ∧
      ∃ re', req'.ext = some re' ∧
        re'.cookie_token = some ⟨5⟩ ∧
        re'.write_cookie = true ∧
        cryptoW.parse (cryptoW.tokStr ⟨5⟩) = some ⟨5⟩ ∧
        post_hook cryptoW req' { status := 200, body := "ok", headers := [] } =
          .ok { status := 200, body := "ok",
                headers := [] ++ [(SET_COOKIE, cookie_directive "x" "s5")] } ∧
        transform_call cryptoW "x" (echo_service cryptoW) reqW =
          .ok (.ok
            { status := 200
              body := "6"
              headers := [(SET_COOKIE, cookie_directive "x" "s5")] }) :=
  fresh_cookie_on_first_use cryptoW "x" reqW
    { status := 200, body := "ok", headers := [] } rfl rfl

/-- C4: on a request presenting a cookie that parses into a valid secret,
the accessor adopts that secret, leaves `write_cookie` false, and returns
the token derived from the presented secret; the post-hook leaves the
response untouched, so no `Set-Cookie` header is produced. -/
theorem cookie_reuse (env : Crypto) (name : String) (req0 : HttpRequest)
    (res : Response) (v : String) (ct : CookieToken)
    (hcookie : req0.cookie name = some v)
    (hparse : env.parse v = some ct) :
    ∃ req', xsrf_token env (pre_hook name req0) = .ok (env.derive ct, req') ∧
      ∃ re', req'.ext = some re' ∧
        re'.cookie_token = some ct ∧
        re'.write_cookie = false ∧
        post_hook env req' res = .ok res ∧
        transform_call env name (echo_service env) req0 =
          .ok (.ok
            { status := 200
              body := toString (env.derive ct).val
              headers := [] }) := by
  have hres : resolve_secret env (pre_hook name req0) name = (false, ct) := by
    simp [resolve_secret, pre_hook_cookie, hcookie, hparse]
  have h := @xsrf_of_fresh env (pre_hook name req0)
    { cookie_name := name, cookie_token := none,
      request_token := none, write_cookie := false } rfl rfl rfl
  simp only [hres] at h
  refine ⟨_, h, _, rfl, rfl, rfl, ?_, ?_⟩
  · simp [post_hook]
  · simp [transform_call, echo_service, h, post_hook]

/-- Witness for C4 on a concrete request carrying a valid cookie. -/
theorem cookie_reuse_witness :
    ∃ req', xsrf_token cryptoW
        (pre_hook "x" { cookies := [("x", "s5")], ext := none }) =
        .ok (⟨6⟩, req') ∧
      ∃ re', req'.ext = some re' ∧
        re'.cookie_token = some ⟨5⟩ ∧
        re'.write_cookie = false ∧
        post_hook cryptoW req' { status := 200, body := "ok", headers := [] } =
          .ok { status := 200, body := "ok", headers := [] } ∧
        transform_call cryptoW "x" (echo_service cryptoW)
            { cookies := [("x", "s5")], ext := none } =
          .ok (.ok { status := 200, body := "6", headers := [] }) :=
  cookie_reuse cryptoW "x" { cookies := [("x", "s5")], ext := none }
    { status := 200, body := "ok", headers := [] } "s5" ⟨5⟩ rfl rfl

/-- C5: a syntactically invalid cookie value is treated exactly like an
absent cookie: the accessor still succeeds (no error is surfaced), a fresh
secret is minted with `write_cookie = true`, and the freshly minted
`Set-Cookie` header appears on the response. -/
theorem malformed_cookie_tolerance (env : Crypto) (name : String)
    (req0 : HttpRequest) (res : Response) (v : String)
    (hcookie : req0.cookie name = some v)
    (hparse : env.parse v = none) :
    ∃ req', xsrf_token env (pre_hook name req0) =
        .ok (env.derive env.fresh, req') ∧
      ∃ re', req'.ext = some re' ∧
        re'.cookie_token = some env.fresh ∧
        re'.write_cookie = true ∧
        post_hook env req' res =
          .ok { res with
                headers := res.headers ++
                  [(SET_COOKIE, cookie_directive name (env.tokStr env.fresh))] } ∧
        transform_call env name (echo_service env) req0 =
          .ok (.ok
            { status := 200
              body := toString (env.derive env.fresh).val
              headers := [(SET_COOKIE, cookie_directive name (env.tokStr env.fresh))] }) := by
  have hres : resolve_secret env (pre_hook name req0) name = (true, env.fresh) := by
    simp [resolve_secret, pre_hook_cookie, hcookie, hparse]
  have h := @xsrf_of_fresh env (pre_hook name req0)
    { cookie_name := name, cookie_token := none,
      request_token := none, write_cookie := false } rfl rfl rfl
  simp only [hres] at h
  refine ⟨_, h, _, rfl, rfl, rfl, ?_, ?_⟩
  · simp [post_hook]
  · simp [transform_call, echo_service, h, post_hook]

/-- Witness for C5 on a concrete request carrying an unparsable cookie. -/
theorem malformed_cookie_tolerance_witness :
    ∃ req', xsrf_token cryptoW
        (pre_hook "x" { cookies := [("x", "bad")], ext := none }) =
        .ok (⟨6⟩, req') ∧
      ∃ re', req'.ext = some re' ∧
        re'.cookie_token = some ⟨5⟩ ∧
        re'.write_cookie = true ∧
        post_hook cryptoW req' { status := 200, body := "ok", headers := [] } =
          .ok { status := 200, body := "ok",
                headers := [] ++ [(SET_COOKIE, cookie_directive "x" "s5")] } ∧
        transform_call cryptoW "x" (echo_service cryptoW)
            { cookies := [("x", "bad")], ext := none } =
          .ok (.ok
            { status := 200
              body := "6"
              headers := [(SET_COOKIE, cookie_directive "x" "s5")] }) :=
  malformed_cookie_tolerance cryptoW "x" { cookies := [("x", "bad")], ext := none }
    { status := 200, body := "ok", headers := [] } "bad" rfl rfl

/-- C8: the per-request state invariants hold for the life of one request:
the pre-hook establishes them, and both `ensure_cookie_token` and
`xsrf_token` preserve them while never replacing an already-set
`cookie_token` or `request_token` (at most one resolution and one derivation
per request); `request_token` is present only if `cookie_token` is, and
`write_cookie` is true only when the stored secret was freshly minted this
request, never after a valid cookie parsed successfully. -/
theorem per_request_state_invariants (env : Crypto) (req : HttpRequest) :
    (∀ name re0, (pre_hook name req).ext = some re0 →
      StateInv env (pre_hook name req) re0) ∧
    (∀ req' re re', ensure_cookie_token env req = .ok req' →
      req.ext = some re → req'.ext = some re' →
      OnceSet re re' ∧ (StateInv env req re → StateInv env req' re')) ∧
    (∀ rt req' re re', xsrf_token env req = .ok (rt, req') →
      req.ext = some re → req'.ext = some re' →
      OnceSet re re' ∧ (StateInv env req re → StateInv env req' re')) := by
  refine ⟨?_, ?_, ?_⟩
  · intro name re0 h
    rw [pre_hook_ext] at h
    simp only [Option.some.injEq] at h
    subst h
    simp [StateInv]
  · intro req' re re' hok hext hext'
    cases hct : re.cookie_token with
    | some ct =>
      rw [ensure_of_isSome hext (by simp [hct])] at hok
      simp only [Except.ok.injEq] at hok
      subst hok
      rw [hext] at hext'
      simp only [Option.some.injEq] at hext'
      subst hext'
      exact ⟨⟨rfl, fun _ h => h, fun _ h => h⟩, fun h => h⟩
    | none =>
      rw [ensure_of_none hext hct] at hok
      simp only [Except.ok.injEq] at hok
      subst hok
      simp only [Option.some.injEq] at hext'
      subst hext'
      refine ⟨⟨rfl, ?_, fun _ h => h⟩, ?_⟩
      · intro ct h
        rw [hct] at h
        cases h
      · intro hInv
        unfold StateInv at hInv ⊢
        obtain ⟨inv1, inv2⟩ := hInv
        refine ⟨by simp, ?_⟩
        intro hwc
        by_cases hr : (resolve_secret env req re.cookie_name).1 = true
        · refine ⟨by simp [resolve_fst_true hr], ?_⟩
          rw [resolve_secret_ext]
          exact hr
        · exfalso
          simp only [Bool.not_eq_true] at hr
          rw [hr] at hwc
          simp only [if_false] at hwc
          obtain ⟨hfresh, -⟩ := inv2 hwc
          rw [hct] at hfresh
          cases hfresh
  · intro rt req' re re' hok hext hext'
    cases hrt : re.request_token with
    | some rt0 =>
      rw [xsrf_of_cached hext hrt] at hok
      simp only [Except.ok.injEq, Prod.mk.injEq] at hok
      obtain ⟨-, hok⟩ := hok
      subst hok
      rw [hext] at hext'
      simp only [Option.some.injEq] at hext'
      subst hext'
      exact ⟨⟨rfl, fun _ h => h, fun _ h => h⟩, fun h => h⟩
    | none =>
      cases hct : re.cookie_token with
      | some ct =>
        rw [xsrf_of_secret hext hrt hct] at hok
        simp only [Except.ok.injEq, Prod.mk.injEq] at hok
        obtain ⟨-, hok⟩ := hok
        subst hok
        simp only [Option.some.injEq] at hext'
        subst hext'
        refine ⟨⟨rfl, fun _ h => h, ?_⟩, ?_⟩
        · intro rt1 h
          rw [hrt] at h
          cases h
        · intro hInv
          unfold StateInv at hInv ⊢
          obtain ⟨inv1, inv2⟩ := hInv
          refine ⟨by simp [hct], ?_⟩
          intro hwc
          obtain ⟨hfresh, hres⟩ := inv2 hwc
          refine ⟨by simp [hfresh], ?_⟩
          rw [resolve_secret_ext]
          exact hres
      | none =>
        rw [xsrf_of_fresh hext hrt hct] at hok
        simp only [Except.ok.injEq, Prod.mk.injEq] at hok
        obtain ⟨-, hok⟩ := hok
        subst hok
        simp only [Option.some.injEq] at hext'
        subst hext'
        refine ⟨⟨rfl, ?_, ?_⟩, ?_⟩
        · intro ct h
          rw [hct] at h
          cases h
        · intro rt1 h
          rw [hrt] at h
          cases h
        · intro hInv
          unfold StateInv at hInv ⊢
          obtain ⟨inv1, inv2⟩ := hInv
          refine ⟨by simp, ?_⟩
          intro hwc
          by_cases hr : (resolve_secret env req re.cookie_name).1 = true
          · refine ⟨by simp [resolve_fst_true hr], ?_⟩
            rw [resolve_secret_ext]
            exact hr
          · exfalso
            simp only [Bool.not_eq_true] at hr
            rw [hr] at hwc
            simp only [if_false] at hwc
            obtain ⟨hfresh, -⟩ := inv2 hwc
            rw [hct] at hfresh
            cases hfresh

/-- Witness for C8: the resolving step of `ensure_cookie_token` on a
cookie-less request preserves the invariants. -/
theorem per_request_state_invariants_witness :
    OnceSet
        { cookie_name := "x", cookie_token := none,
          request_token := none, write_cookie := false }
        { cookie_name := "x", cookie_token := some ⟨5⟩,
          request_token := none, write_cookie := true } ∧
    (StateInv cryptoW (pre_hook "x" reqW)
        { cookie_name := "x", cookie_token := none,
          request_token := none, write_cookie := false } →
      StateInv cryptoW
        { cookies := [],
          ext := some
            { cookie_name := "x", cookie_token := some ⟨5⟩,
              request_token := none, write_cookie := true } }
        { cookie_name := "x", cookie_token := some ⟨5⟩,
          request_token := none, write_cookie := true }) :=
  (per_request_state_invariants cryptoW (pre_hook "x" reqW)).2.1
    { cookies := [],
      ext := some
        { cookie_name := "x", cookie_token := some ⟨5⟩,
          request_token := none, write_cookie := true } }
    { cookie_name := "x", cookie_token := none,
      request_token := none, write_cookie := false }
    { cookie_name := "x", cookie_token := some ⟨5⟩,
      request_token := none, write_cookie := true }
    (by rfl) rfl rfl

/-- C10: in every state reachable from the pre-hook's output by accessor
calls, an extension is attached and `write_cookie = true` implies the stored
secret is present; hence the post-hook's unconditional unwraps never panic
on a request the middleware wrapped: `post_hook` always returns a response. -/
theorem reachable_post_hook_safe (env : Crypto) (r : HttpRequest)
    (hr : Reachable env r) :
    (∃ re, r.ext = some re ∧
      (re.write_cookie = true → re.cookie_token.isSome = true)) ∧
    (∀ res : Response, ∃ res', post_hook env r res = .ok res') := by
  have key : ∃ re, r.ext = some re ∧
      (re.write_cookie = true → re.cookie_token.isSome = true) := by
    induction hr with
    | start name req => exact ⟨_, pre_hook_ext, by simp⟩
    | ensure_step hprev hok ih =>
      obtain ⟨re, hext, hinv⟩ := ih
      cases hct : re.cookie_token with
      | some ct =>
        rw [ensure_of_isSome hext (by simp [hct])] at hok
        simp only [Except.ok.injEq] at hok
        subst hok
        exact ⟨re, hext, hinv⟩
      | none =>
        rw [ensure_of_none hext hct] at hok
        simp only [Except.ok.injEq] at hok
        subst hok
        exact ⟨_, rfl, by simp⟩
    | token_step hprev hok ih =>
      obtain ⟨re, hext, hinv⟩ := ih
      cases hrt : re.request_token with
      | some rt0 =>
        rw [xsrf_of_cached hext hrt] at hok
        simp only [Except.ok.injEq, Prod.mk.injEq] at hok
        obtain ⟨-, hok⟩ := hok
        subst hok
        exact ⟨re, hext, hinv⟩
      | none =>
        cases hct : re.cookie_token with
        | some ct =>
          rw [xsrf_of_secret hext hrt hct] at hok
          simp only [Except.ok.injEq, Prod.mk.injEq] at hok
          obtain ⟨-, hok⟩ := hok
          subst hok
          exact ⟨_, rfl, by simp [hct]⟩
        | none =>
          rw [xsrf_of_fresh hext hrt hct] at hok
          simp only [Except.ok.injEq, Prod.mk.injEq] at hok
          obtain ⟨-, hok⟩ := hok
          subst hok
          exact ⟨_, rfl, by simp⟩
  refine ⟨key, ?_⟩
  obtain ⟨re, hext, hinv⟩ := key
  intro res
  by_cases hwc : re.write_cookie = true
  · cases hcs : re.cookie_token with
    | none =>
      have h5 := hinv hwc
      rw [hcs] at h5
      simp at h5
    | some ct =>
      exact ⟨{ res with
          headers := res.headers ++
            [(SET_COOKIE, cookie_directive re.cookie_name (env.tokStr ct))] },
        by simp [post_hook, hext, hwc, hcs]⟩
  · exact ⟨res, by simp [post_hook, hext, hwc]⟩

/-- Witness for C10 at the pre-hook's own output state. -/
theorem reachable_post_hook_safe_witness :
    (∃ re, (pre_hook "x" reqW).ext = some re ∧
      (re.write_cookie = true → re.cookie_token.isSome = true)) ∧
    (∀ res : Response, ∃ res',
      post_hook cryptoW (pre_hook "x" reqW) res = .ok res') :=
  reachable_post_hook_safe cryptoW (pre_hook "x" reqW) (Reachable.start "x" reqW)

end ActixXsrf
